import Mathlib

/-!
Shallow embedding of `serv.py`, a two-player Connect Four websocket server.
The transport layer (websockets, JSON framing, uuids) is abstracted away:
participant ids and game ids become opaque `Nat`s supplied by the caller, and
messages sent over a connection become values returned alongside the new state.
Everything that the game and server logic computes (board mechanics, win
detection, turn arbitration, matchmaking, response dictionaries) is translated
directly from the Python source.
-/

namespace Connect4

/-- A board is the Python `self.board`: a list of 6 rows, each a list of 7
cells, cell values 0 (empty), 1 (seat 1's piece) or 2 (seat 2's piece). -/
abbrev Board : Type := List (List Nat)

/-- Read `board[row][col]`, defaulting to 0 out of range (Python boards are
always exactly 6 by 7, which `BoardWF` captures where it matters). -/
def getCell (b : Board) (row col : Nat) : Nat :=
  (List.getD b row []).getD col 0

/-- Write `board[row][col] = v` (no-op out of range, like `List.set`). -/
def setCell (b : Board) (row col : Nat) (v : Nat) : Board :=
  List.set b row ((List.getD b row []).set col v)

/-- The shape invariant of every board the Python code builds: 6 rows of 7. -/
def BoardWF (b : Board) : Prop :=
  List.length b = 6 ∧ ∀ r ∈ b, List.length r = 7

/-- The fresh board `[[0]*7 for _ in range(6)]`. -/
def emptyBoard : Board := List.replicate 6 (List.replicate 7 0)

/-- State of `Connect4Game.__init__`: board, current player, seat-to-player
mapping (`players`, a Python dict keyed 1 and 2, modelled as an insertion
ordered association list), `game_over` flag and `winner`. -/
structure Game where
  game_id : Nat
  board : Board
  current_player : Nat
  players : List (Nat × Nat)
  game_over : Bool
  winner : Option Nat
  deriving DecidableEq

/-- `Connect4Game(game_id)`: empty board, player 1 to move, no players yet. -/
def initGame (game_id : Nat) : Game :=
  { game_id := game_id
    board := emptyBoard
    current_player := 1
    players := []
    game_over := false
    winner := none }

/-- `Connect4Game.check_winner`: scan the whole board for four in a row of
`player`, horizontally, vertically and on both diagonals, with exactly the
anchor ranges of the Python loops. -/
def check_winner (b : Board) (player : Nat) : Bool :=
  -- Horizontal check: rows 0..5, anchor columns 0..3
  ((List.range 6).any fun row => (List.range 4).any fun col =>
    (List.range 4).all fun i => getCell b row (col + i) == player)
  ||
  -- Vertical check: columns 0..6, anchor rows 0..2
  ((List.range 7).any fun col => (List.range 3).any fun row =>
    (List.range 4).all fun i => getCell b (row + i) col == player)
  ||
  -- Diagonal checks: anchor rows 0..2, anchor columns 0..3,
  -- down-right cells (row+i, col+i) and down-left cells (row+i, col+3-i)
  ((List.range 3).any fun row => (List.range 4).any fun col =>
    ((List.range 4).all fun i => getCell b (row + i) (col + i) == player)
    || ((List.range 4).all fun i => getCell b (row + i) (col + 3 - i) == player))

/-- The Python loop `for row in range(5, -1, -1): if board[row][column] == 0`,
scanning row indices from `r` down to 0 and returning the first empty one. -/
def findEmptyRowFrom (b : Board) (col : Nat) : Nat → Option Nat
  | 0 => if getCell b 0 col = 0 then some 0 else none
  | r + 1 => if getCell b (r + 1) col = 0 then some (r + 1) else findEmptyRowFrom b col r

/-- First empty row of a column scanning from the floor (row 5) upward. -/
def findEmptyRow (b : Board) (col : Nat) : Option Nat :=
  findEmptyRowFrom b col 5

/-- `Connect4Game.make_move(player, column)`: validate the column, drop the
piece into the first empty row from the bottom, run win detection, flip
`current_player` to `3 - player`, and return the `(success, message)` pair
together with the updated game (the Python method mutates `self`). The column
is an `Int` because Python accepts and rejects negative input. -/
def make_move (g : Game) (player : Nat) (column : Int) : Bool × String × Game :=
  if column < 0 ∨ 7 ≤ column then (false, "Invalid column", g)
  else
    match findEmptyRow g.board column.toNat with
    | none => (false, "Column is full", g)
    | some row =>
      let b := setCell g.board row column.toNat player
      let won := check_winner b player
      (true, "Move successful",
        { g with
          board := b
          game_over := if won then true else g.game_over
          winner := if won then some player else g.winner
          current_player := 3 - player })

/-- The dictionary `handle_move` returns to the requesting client. Python
builds dicts with varying key sets: `success` and `message` are in every
return, while `board`, `current_player`, `game_over` and `winner` appear only
on the path that reached `make_move`; an `Option` field set to `none` models
an absent key. -/
structure MoveResponse where
  success : Bool
  message : String
  board : Option Board := none
  current_player : Option Nat := none
  game_over : Option Bool := none
  winner : Option (Option Nat) := none
  deriving DecidableEq

/-- A `game_status` message sent by `register_player` to one client. -/
structure GameStatusMsg where
  status : String
  player_number : Nat
  game_id : Nat
  deriving DecidableEq

/-- Server state relevant to the game logic: the `games` dict (insertion
ordered association list from game id to game) and the `game_waiting` slot.
Python stores the waiting game object itself; since that object is always an
entry of `games`, the model stores its id and looks it up. The
`player_connections` dict holds websocket handles only, so the model drops it
and instead returns each outbound message paired with its recipient's id. -/
structure Server where
  games : List (Nat × Game)
  game_waiting : Option Nat
  deriving DecidableEq

/-- The scan `for game in self.games.values(): if player_id in
game.players.values()` fused with the seat computation
`list(game.players.keys())[list(game.players.values()).index(player_id)]`:
the first game containing the player, with its id and the first seat mapped
to the player (membership in the dict values is exactly `find?` succeeding,
and `.index` picks the first occurrence just as `find?` does). -/
def locatePlayer : List (Nat × Game) → Nat → Option (Nat × Game × Nat)
  | [], _ => none
  | (gid, g) :: rest, pid =>
    match g.players.find? (fun p => p.2 == pid) with
    | some seatEntry => some (gid, g, seatEntry.1)
    | none => locatePlayer rest pid

/-- Replace the entry of `games` for id `gid` (Python mutates the game object
held in the dict in place). -/
def setGame (games : List (Nat × Game)) (gid : Nat) (g : Game) : List (Nat × Game) :=
  games.map fun e => if e.1 = gid then (gid, g) else e

/-- `Connect4Server.handle_move(player_id, data)`: locate the player's game,
reject out-of-turn requests, otherwise run `make_move` and answer with the
full state snapshot; `Game not found` when no game contains the player.
Returns the response together with the updated server (the broadcast to both
players on success carries the same board/current_player/game_over/winner
fields as the response and is not separately modelled). -/
def handle_move (s : Server) (pid : Nat) (column : Int) : MoveResponse × Server :=
  match locatePlayer s.games pid with
  | none => ({ success := false, message := "Game not found" }, s)
  | some (gid, g, seat) =>
    if g.current_player ≠ seat then
      ({ success := false, message := "Not your turn" }, s)
    else
      match make_move g seat column with
      | (ok, msg, g1) =>
        ({ success := ok
           message := msg
           board := some g1.board
           current_player := some g1.current_player
           game_over := some g1.game_over
           winner := some g1.winner },
         { s with games := setGame s.games gid g1 })

/-- `Connect4Server.register_player(websocket)`: the fresh uuid for the
player and (when needed) for the new game are opaque inputs `pid` and
`new_gid`. Returns the new server state and the `game_status` messages sent,
each paired with the recipient's player id. -/
def register_player (s : Server) (pid new_gid : Nat) :
    Server × List (Nat × GameStatusMsg) :=
  match s.game_waiting with
  | none =>
    -- create a new game, seat 1 goes to the joiner, park it as waiting
    let game := { initGame new_gid with players := [(1, pid)] }
    ({ games := s.games ++ [(new_gid, game)], game_waiting := some new_gid },
     [(pid, { status := "waiting", player_number := 1, game_id := new_gid })])
  | some gid =>
    match (s.games.find? fun e => e.1 == gid) with
    | none => (s, [])  -- unreachable: the waiting slot aliases an entry of games
    | some e =>
      -- seat 2 goes to the joiner, notify both seats, clear the waiting slot
      let game := { e.2 with players := e.2.players ++ [(2, pid)] }
      ({ games := setGame s.games gid game, game_waiting := none },
       game.players.map fun p =>
         (p.2, { status := "started", player_number := p.1, game_id := game.game_id }))

/-- Fold a sequence of move submissions (requesting player id and column)
through `handle_move`, keeping only the server state. -/
def runMoves (s : Server) : List (Nat × Int) → Server
  | [] => s
  | m :: ms => runMoves (handle_move s m.1 m.2).2 ms

/-- Four-in-a-row as the spec words it: the board contains four consecutive
cells of the player's marker in a horizontal line, a vertical line, or either
diagonal, anywhere on the 6 by 7 grid. Written independently of the scan in
`check_winner` so that the two can be compared. -/
def winSpec (b : Board) (player : Nat) : Prop :=
  (∃ row col, row < 6 ∧ col + 3 < 7 ∧ ∀ i < 4, getCell b row (col + i) = player) ∨
  (∃ row col, row + 3 < 6 ∧ col < 7 ∧ ∀ i < 4, getCell b (row + i) col = player) ∨
  (∃ row col, row + 3 < 6 ∧ col + 3 < 7 ∧ ∀ i < 4, getCell b (row + i) (col + i) = player) ∨
  (∃ row col, row + 3 < 6 ∧ 3 ≤ col ∧ col < 7 ∧ ∀ i < 4, getCell b (row + i) (col - i) = player)

/-- The cell at `(r, c)` of the game registered under `gid` (0 when the id is
absent, matching the empty-cell encoding). -/
def serverCell (s : Server) (gid r c : Nat) : Nat :=
  match s.games.find? fun e => e.1 == gid with
  | some e => getCell e.2.board r c
  | none => 0

/-- The `games` dict has distinct keys (true of every Python dict). -/
def KeysNodup (s : Server) : Prop := (s.games.map Prod.fst).Nodup

/-- Every seat key is 1 or 2, as `register_player` only ever creates
`players[1]` and `players[2]`. -/
def SeatsWF (s : Server) : Prop :=
  ∀ e ∈ s.games, ∀ p ∈ Game.players e.2, p.1 = 1 ∨ p.1 = 2

/-! ### Concrete fixtures used by the closed theorems -/

/-- A game one move away from a seat-1 vertical win in column 0. -/
def nearWinGame : Game :=
  { game_id := 0
    board := [[0,0,0,0,0,0,0],
              [0,0,0,0,0,0,0],
              [0,0,0,0,0,0,0],
              [1,0,0,0,0,0,0],
              [1,0,0,0,0,0,0],
              [1,2,2,2,0,0,0]]
    current_player := 1
    players := [(1, 10), (2, 20)]
    game_over := false
    winner := none }

/-- The state of `nearWinGame` after seat 1 completes the vertical four:
`game_over` is set, yet `current_player` has been flipped to 2. -/
def wonGame : Game :=
  { game_id := 0
    board := [[0,0,0,0,0,0,0],
              [0,0,0,0,0,0,0],
              [1,0,0,0,0,0,0],
              [1,0,0,0,0,0,0],
              [1,0,0,0,0,0,0],
              [1,2,2,2,0,0,0]]
    current_player := 2
    players := [(1, 10), (2, 20)]
    game_over := true
    winner := some 1 }

/-- A server holding only the finished game. -/
def wonServer : Server := { games := [(0, wonGame)], game_waiting := none }

/-- A drawless full board minus its top-left cell: seat 1's next drop in
column 0 fills the board without making four-in-a-row for anyone. -/
def nearDrawGame : Game :=
  { game_id := 1
    board := [[0,2,1,2,1,2,1],
              [1,2,1,2,1,2,1],
              [2,1,2,1,2,1,2],
              [2,1,2,1,2,1,2],
              [1,2,1,2,1,2,1],
              [1,2,1,2,1,2,1]]
    current_player := 1
    players := [(1, 10), (2, 20)]
    game_over := false
    winner := none }

/-- A server with one in-progress game, seat 1 (player id 10) to move. -/
def twoPlayerServer : Server :=
  { games := [(0, { initGame 0 with players := [(1, 10), (2, 20)] })]
    game_waiting := none }

/-- A server with no games at all. -/
def emptyServer : Server := { games := [], game_waiting := none }

/-- First participant (id 10) has joined: a waiting session exists. -/
def waitingServer : Server := (register_player emptyServer 10 0).1

/-- The waiting participant has already played column 3 before anyone joined
(nothing in `handle_move` stops a move in a single-player session). -/
def waitingMovedServer : Server := (handle_move waitingServer 10 3).2

/-! ### Cell access lemmas -/

theorem getCell_eq_getElem (b : Board) (r c : Nat) :
    getCell b r c = (b[r]?.getD [])[c]?.getD 0 := by
  simp [getCell, List.getD_eq_getElem?_getD]

theorem setCell_eq_set (b : Board) (r c v : Nat) :
    setCell b r c v = b.set r ((b[r]?.getD []).set c v) := by
  rw [setCell, List.getD_eq_getElem?_getD]

theorem getCell_setCell_self (b : Board) (r c v : Nat) (hwf : BoardWF b)
    (hr : r < 6) (hc : c < 7) :
    getCell (setCell b r c v) r c = v := by
  obtain ⟨hlen, hrow⟩ := hwf
  have hr' : r < b.length := by omega
  have hrowget : b[r]?.getD [] = b[r] := by
    rw [List.getElem?_eq_getElem hr']; rfl
  have hrowlen : (b[r]?.getD []).length = 7 := by
    rw [hrowget]; exact hrow _ (b.getElem_mem hr')
  have hlen7 : b[r].length = 7 := hrowget ▸ hrowlen
  rw [getCell_eq_getElem, setCell_eq_set]
  simp [List.getElem?_set, hr', hlen7, hc]

theorem getCell_setCell_ne (b : Board) (r c v r' c' : Nat)
    (h : r' ≠ r ∨ c' ≠ c) :
    getCell (setCell b r c v) r' c' = getCell b r' c' := by
  rw [getCell_eq_getElem, getCell_eq_getElem, setCell_eq_set]
  rcases h with h | h
  · rw [List.getElem?_set_ne (fun he => h he.symm)]
  · rw [List.getElem?_set]
    by_cases hrr : r = r'
    · subst hrr
      by_cases hlen : r < b.length
      · simp only [eq_self_iff_true, if_true, if_pos hlen, Option.getD_some]
        rw [List.getElem?_set_ne (fun he => h he.symm)]
      · have hb : b[r]? = none := by rw [List.getElem?_eq_none_iff]; omega
        simp [hlen, hb]
    · simp [hrr]

/-- Either `setCell` leaves a cell alone, or the cell is exactly the target
and now holds `v`. -/
theorem getCell_setCell_cases (b : Board) (r c v r' c' : Nat) :
    getCell (setCell b r c v) r' c' = getCell b r' c' ∨
      (r' = r ∧ c' = c ∧ getCell (setCell b r c v) r' c' = v) := by
  by_cases hr : r' = r
  · by_cases hc : c' = c
    · subst hr; subst hc
      by_cases hlen : r' < b.length
      · have hget : b[r']?.getD [] = b[r'] := by
          rw [List.getElem?_eq_getElem hlen]; rfl
        by_cases hclen : c' < (b[r']?.getD []).length
        · right
          refine ⟨rfl, rfl, ?_⟩
          rw [getCell_eq_getElem, setCell_eq_set]
          simp [List.getElem?_set, hlen, hget ▸ hclen]
        · left
          have hb : (b[r']?.getD [])[c']? = none := by
            rw [List.getElem?_eq_none_iff]; omega
          rw [getCell_eq_getElem, getCell_eq_getElem, setCell_eq_set]
          simp [List.getElem?_set, hlen, hget ▸ hclen, hget ▸ hb]
      · left
        have hb : b[r']? = none := by rw [List.getElem?_eq_none_iff]; omega
        rw [getCell_eq_getElem, getCell_eq_getElem, setCell_eq_set]
        simp [List.getElem?_set, hlen, hb]
    · exact Or.inl (getCell_setCell_ne b r c v r' c' (Or.inr hc))
  · exact Or.inl (getCell_setCell_ne b r c v r' c' (Or.inl hr))

/-! ### findEmptyRow characterization: the scan from row 5 downward returns
the greatest empty row index, i.e. the "lowest" cell in gravity terms. -/

theorem findEmptyRowFrom_eq_some (b : Board) (col : Nat) :
    ∀ r row, findEmptyRowFrom b col r = some row ↔
      (row ≤ r ∧ getCell b row col = 0 ∧
        ∀ j, row < j → j ≤ r → getCell b j col ≠ 0) := by
  intro r
  induction r with
  | zero =>
    intro row
    simp only [findEmptyRowFrom]
    by_cases h : getCell b 0 col = 0
    · rw [if_pos h]
      simp only [Option.some.injEq]
      constructor
      · rintro rfl; exact ⟨Nat.le_refl 0, h, fun j hj hj' => by omega⟩
      · rintro ⟨hle, _, _⟩; omega
    · simp only [if_neg h]
      constructor
      · intro hfalse; exact absurd hfalse (by simp)
      · rintro ⟨hle, h0, _⟩
        interval_cases row
        exact absurd h0 h
  | succ n ih =>
    intro row
    simp only [findEmptyRowFrom]
    by_cases h : getCell b (n + 1) col = 0
    · rw [if_pos h]
      simp only [Option.some.injEq]
      constructor
      · rintro rfl
        exact ⟨Nat.le_refl _, h, fun j hj hj' => by omega⟩
      · rintro ⟨hle, h0, hall⟩
        by_contra hne
        have hrow : row ≠ n + 1 := fun heq => hne (heq ▸ rfl)
        exact hall (n + 1) (by omega) (Nat.le_refl _) h
    · simp only [if_neg h, ih row]
      constructor
      · rintro ⟨hle, h0, hall⟩
        refine ⟨by omega, h0, fun j hj hj' => ?_⟩
        rcases Nat.lt_or_ge j (n + 1) with hj2 | hj2
        · exact hall j hj (by omega)
        · have : j = n + 1 := by omega
          subst this; exact h
      · rintro ⟨hle, h0, hall⟩
        have hrow : row ≠ n + 1 := fun heq => h (heq ▸ h0)
        exact ⟨by omega, h0, fun j hj hj' => hall j hj (by omega)⟩

theorem findEmptyRowFrom_eq_none (b : Board) (col : Nat) :
    ∀ r, findEmptyRowFrom b col r = none ↔ ∀ j ≤ r, getCell b j col ≠ 0 := by
  intro r
  induction r with
  | zero =>
    simp only [findEmptyRowFrom]
    by_cases h : getCell b 0 col = 0 <;> simp [h]
  | succ n ih =>
    simp only [findEmptyRowFrom]
    by_cases h : getCell b (n + 1) col = 0
    · rw [if_pos h]
      constructor
      · intro hfalse; exact absurd hfalse (by simp)
      · intro hall; exact absurd h (hall (n + 1) (Nat.le_refl _))
    · simp only [if_neg h, ih]
      constructor
      · intro hall j hj
        rcases Nat.lt_or_ge j (n + 1) with hj2 | hj2
        · exact hall j (by omega)
        · have : j = n + 1 := by omega
          subst this; exact h
      · intro hall j hj
        exact hall j (by omega)

theorem findEmptyRow_eq_some (b : Board) (col row : Nat) :
    findEmptyRow b col = some row ↔
      (row ≤ 5 ∧ getCell b row col = 0 ∧
        ∀ j, row < j → j ≤ 5 → getCell b j col ≠ 0) :=
  findEmptyRowFrom_eq_some b col 5 row

theorem findEmptyRow_eq_none (b : Board) (col : Nat) :
    findEmptyRow b col = none ↔ ∀ j ≤ 5, getCell b j col ≠ 0 :=
  findEmptyRowFrom_eq_none b col 5

/-! ### make_move case analysis -/

theorem make_move_invalid (g : Game) (player : Nat) (column : Int)
    (h : column < 0 ∨ 7 ≤ column) :
    make_move g player column = (false, "Invalid column", g) := by
  simp only [make_move, if_pos h]

theorem make_move_full (g : Game) (player : Nat) (column : Int)
    (hc : ¬(column < 0 ∨ 7 ≤ column))
    (h : findEmptyRow g.board column.toNat = none) :
    make_move g player column = (false, "Column is full", g) := by
  simp only [make_move, if_neg hc, h]

theorem make_move_placed (g : Game) (player : Nat) (column : Int) (row : Nat)
    (hc : ¬(column < 0 ∨ 7 ≤ column))
    (h : findEmptyRow g.board column.toNat = some row) :
    make_move g player column = (true, "Move successful",
      { g with
        board := setCell g.board row column.toNat player
        game_over :=
          if check_winner (setCell g.board row column.toNat player) player
          then true else g.game_over
        winner :=
          if check_winner (setCell g.board row column.toNat player) player
          then some player else g.winner
        current_player := 3 - player }) := by
  simp only [make_move, if_neg hc, h]

/-- Inversion: a successful `make_move` means the column was in range, an
empty row was found, and the updated game has exactly the shape the code
builds. -/
theorem make_move_success_inv (g : Game) (player : Nat) (column : Int)
    (msg : String) (g' : Game)
    (h : make_move g player column = (true, msg, g')) :
    ¬(column < 0 ∨ 7 ≤ column) ∧
      ∃ row, findEmptyRow g.board column.toNat = some row ∧
        msg = "Move successful" ∧
        g' = { g with
          board := setCell g.board row column.toNat player
          game_over :=
            if check_winner (setCell g.board row column.toNat player) player
            then true else g.game_over
          winner :=
            if check_winner (setCell g.board row column.toNat player) player
            then some player else g.winner
          current_player := 3 - player } := by
  by_cases hc : column < 0 ∨ 7 ≤ column
  · rw [make_move_invalid g player column hc] at h
    injection h with h1 _
    exact Bool.noConfusion h1
  · refine ⟨hc, ?_⟩
    cases hrow : findEmptyRow g.board column.toNat with
    | none =>
      rw [make_move_full g player column hc hrow] at h
      injection h with h1 _
      exact Bool.noConfusion h1
    | some row =>
      rw [make_move_placed g player column row hc hrow] at h
      injection h with h1 h2
      injection h2 with h2 h3
      exact ⟨row, rfl, h2.symm, h3.symm⟩

/-- `make_move` never touches the seat assignment or the game id. -/
theorem make_move_players_id (g : Game) (player : Nat) (column : Int) :
    (make_move g player column).2.2.players = g.players ∧
      (make_move g player column).2.2.game_id = g.game_id := by
  by_cases hc : column < 0 ∨ 7 ≤ column
  · rw [make_move_invalid g player column hc]; exact ⟨rfl, rfl⟩
  · cases hrow : findEmptyRow g.board column.toNat with
    | none => rw [make_move_full g player column hc hrow]; exact ⟨rfl, rfl⟩
    | some row => rw [make_move_placed g player column row hc hrow]; exact ⟨rfl, rfl⟩

/-- The board after `make_move` is the old board, or the old board with one
piece dropped into a previously empty row found by the bottom-up scan. -/
theorem make_move_board_cases (g : Game) (player : Nat) (column : Int) :
    (make_move g player column).2.2.board = g.board ∨
      ∃ row, findEmptyRow g.board column.toNat = some row ∧
        (make_move g player column).2.2.board =
          setCell g.board row column.toNat player := by
  by_cases hc : column < 0 ∨ 7 ≤ column
  · rw [make_move_invalid g player column hc]; exact Or.inl rfl
  · cases hrow : findEmptyRow g.board column.toNat with
    | none => rw [make_move_full g player column hc hrow]; exact Or.inl rfl
    | some row =>
      rw [make_move_placed g player column row hc hrow]
      exact Or.inr ⟨row, rfl, rfl⟩

/-! ### Claim theorems -/

/-- C1 (code bug): the session `wonGame` is terminal (`game_over` set,
seat 1 has won), yet seat 2's subsequent move submission does not fail with
any `GameNotActive`-style rejection: `handle_move` accepts it, reports
success, and mutates the board (cell (5,6) goes from 0 to 2) and the server
state. -/
theorem claim1_terminal_state_not_frozen :
    wonGame.game_over = true ∧
    (handle_move wonServer 20 6).1.success = true ∧
    (handle_move wonServer 20 6).1.message = "Move successful" ∧
    serverCell wonServer 0 5 6 = 0 ∧
    serverCell (handle_move wonServer 20 6).2 0 5 6 = 2 ∧
    (handle_move wonServer 20 6).2 ≠ wonServer := by
  refine ⟨rfl, rfl, rfl, rfl, rfl, ?_⟩
  decide

/-- C2 counterexample: seat 1's move on `nearWinGame` creates four-in-a-row,
sets `game_over` and `winner`, but flips `current_player` from 1 to 2 instead
of leaving the turn unchanged. -/
theorem claim2_counterexample :
    make_move nearWinGame 1 0 = (true, "Move successful", wonGame) ∧
    wonGame.game_over = true ∧ wonGame.winner = some 1 ∧
    nearWinGame.current_player = 1 ∧ wonGame.current_player = 2 :=
  ⟨by decide, rfl, rfl, rfl, rfl⟩

/-- C2 amended: on every successful move the turn is flipped to the other
seat (`3 - player`), winning moves included; a winning placement additionally
sets `game_over` and `winner`, and a non-winning one leaves them unchanged. -/
theorem claim2_amended_turn_flips_even_on_win (g : Game) (player : Nat)
    (column : Int) (msg : String) (g1 : Game)
    (h : make_move g player column = (true, msg, g1)) :
    g1.current_player = 3 - player ∧
    (check_winner g1.board player = true →
      g1.game_over = true ∧ g1.winner = some player) ∧
    (check_winner g1.board player = false →
      g1.game_over = g.game_over ∧ g1.winner = g.winner) := by
  obtain ⟨hc, row, hrow, hmsg, hg⟩ := make_move_success_inv g player column msg g1 h
  subst hg
  refine ⟨rfl, ?_, ?_⟩ <;> intro hw <;> simp [hw]

/-- C2 witness: the amended claim evaluated on the concrete winning move. -/
theorem claim2_amended_witness :
    wonGame.current_player = 3 - 1 ∧
    (check_winner wonGame.board 1 = true →
      wonGame.game_over = true ∧ wonGame.winner = some 1) ∧
    (check_winner wonGame.board 1 = false →
      wonGame.game_over = nearWinGame.game_over ∧
      wonGame.winner = nearWinGame.winner) :=
  claim2_amended_turn_flips_even_on_win nearWinGame 1 0 "Move successful" wonGame
    (by decide)

/-- C3 (code bug): seat 1's move on `nearDrawGame` fills the last empty cell
of the board and makes four-in-a-row for nobody, yet `game_over` stays false
and `winner` stays `none` — the code has no draw detection, so the session
never reaches a Drawn status. -/
theorem claim3_no_draw_detection :
    (make_move nearDrawGame 1 0).1 = true ∧
    ((List.range 7).all fun c =>
      (findEmptyRow (make_move nearDrawGame 1 0).2.2.board c).isNone) = true ∧
    check_winner (make_move nearDrawGame 1 0).2.2.board 1 = false ∧
    check_winner (make_move nearDrawGame 1 0).2.2.board 2 = false ∧
    (make_move nearDrawGame 1 0).2.2.game_over = false ∧
    (make_move nearDrawGame 1 0).2.2.winner = none := by
  refine ⟨rfl, ?_, ?_, ?_, rfl, rfl⟩ <;> decide

/-- C4: for an in-range column with an empty cell, `make_move` drops the
piece into the lowest empty row of that column (largest empty row index, row
5 being the floor, every row strictly below it occupied); for a full column
it fails with "Column is full" and returns the game unchanged. -/
theorem claim4_gravity_and_column_full (g : Game) (player : Nat) (column : Int)
    (hwf : BoardWF g.board) (h0 : 0 ≤ column) (h7 : column < 7) :
    ((∃ r, r ≤ 5 ∧ getCell g.board r column.toNat = 0) →
      ∃ row, findEmptyRow g.board column.toNat = some row ∧
        getCell g.board row column.toNat = 0 ∧
        (∀ j, row < j → j ≤ 5 → getCell g.board j column.toNat ≠ 0) ∧
        (make_move g player column).1 = true ∧
        (make_move g player column).2.2.board =
          setCell g.board row column.toNat player ∧
        getCell (make_move g player column).2.2.board row column.toNat = player) ∧
    ((∀ r, r ≤ 5 → getCell g.board r column.toNat ≠ 0) →
      make_move g player column = (false, "Column is full", g)) := by
  have hc : ¬(column < 0 ∨ 7 ≤ column) := by omega
  constructor
  · rintro ⟨r, hr5, hr0⟩
    cases hrow : findEmptyRow g.board column.toNat with
    | none => exact absurd hr0 ((findEmptyRow_eq_none _ _).1 hrow r hr5)
    | some row =>
      obtain ⟨hle, hempty, habove⟩ := (findEmptyRow_eq_some _ _ _).1 hrow
      refine ⟨row, rfl, hempty, habove, ?_, ?_, ?_⟩
      · rw [make_move_placed g player column row hc hrow]
      · rw [make_move_placed g player column row hc hrow]
      · rw [make_move_placed g player column row hc hrow]
        exact getCell_setCell_self _ _ _ _ hwf (by omega) (by omega)
  · intro hfull
    exact make_move_full g player column hc
      ((findEmptyRow_eq_none _ _).2 fun j hj => hfull j hj)

/-- C4 witness: the claim evaluated on a column with room (column 0 of
`nearWinGame`) and on a full column (column 1 of `nearDrawGame`). -/
theorem claim4_witness :
    (∃ row, findEmptyRow nearWinGame.board (0 : Int).toNat = some row ∧
      getCell nearWinGame.board row (0 : Int).toNat = 0 ∧
      (∀ j, row < j → j ≤ 5 → getCell nearWinGame.board j (0 : Int).toNat ≠ 0) ∧
      (make_move nearWinGame 1 0).1 = true ∧
      (make_move nearWinGame 1 0).2.2.board =
        setCell nearWinGame.board row (0 : Int).toNat 1 ∧
      getCell (make_move nearWinGame 1 0).2.2.board row (0 : Int).toNat = 1) ∧
    make_move nearDrawGame 1 1 = (false, "Column is full", nearDrawGame) :=
  ⟨(claim4_gravity_and_column_full nearWinGame 1 0 ⟨rfl, by decide⟩ (by decide)
      (by decide)).1 ⟨2, by decide⟩,
   (claim4_gravity_and_column_full nearDrawGame 1 1 ⟨rfl, by decide⟩ (by decide)
      (by decide)).2 (by decide)⟩

/-- C5: a move request by a located participant whose seat is not the current
turn fails with "Not your turn" and returns the server state unchanged, so
board, turn and status are untouched. -/
theorem claim5_not_your_turn (s : Server) (pid : Nat) (column : Int)
    (gid : Nat) (g : Game) (seat : Nat)
    (hloc : locatePlayer s.games pid = some (gid, g, seat))
    (hturn : g.current_player ≠ seat) :
    handle_move s pid column =
      ({ success := false, message := "Not your turn" }, s) := by
  unfold handle_move
  rw [hloc]
  simp [hturn]

/-- C5 witness: seat 2 requests a move while it is seat 1's turn. -/
theorem claim5_witness :
    handle_move twoPlayerServer 20 0 =
      ({ success := false, message := "Not your turn" }, twoPlayerServer) :=
  claim5_not_your_turn twoPlayerServer 20 0 0
    { initGame 0 with players := [(1, 10), (2, 20)] } 2 (by decide) (by decide)

/-- C10: a successful `make_move` changes exactly one board cell — the lowest
empty row of the chosen column goes from 0 to the mover's seat number — and
every other cell, the `game_id` and the seat mapping are unchanged. -/
theorem claim10_frame (g : Game) (player : Nat) (column : Int) (msg : String)
    (g1 : Game) (hwf : BoardWF g.board) (hp : player = 1 ∨ player = 2)
    (h : make_move g player column = (true, msg, g1)) :
    ∃ row, findEmptyRow g.board column.toNat = some row ∧
      getCell g.board row column.toNat = 0 ∧
      getCell g1.board row column.toNat = player ∧
      getCell g1.board row column.toNat ≠ getCell g.board row column.toNat ∧
      (∀ r c, ¬(r = row ∧ c = column.toNat) →
        getCell g1.board r c = getCell g.board r c) ∧
      g1.game_id = g.game_id ∧ g1.players = g.players := by
  obtain ⟨hc, row, hrow, hmsg, hg⟩ := make_move_success_inv g player column msg g1 h
  obtain ⟨hle, hempty, habove⟩ := (findEmptyRow_eq_some _ _ _).1 hrow
  subst hg
  have hself : getCell (setCell g.board row column.toNat player) row column.toNat
      = player :=
    getCell_setCell_self _ _ _ _ hwf (by omega) (by omega)
  refine ⟨row, hrow, hempty, hself, ?_, ?_, rfl, rfl⟩
  · rw [hself, hempty]; omega
  · intro r c hne
    exact getCell_setCell_ne _ _ _ _ _ _ (by tauto)

/-- C10 witness: the frame property evaluated on the concrete winning move. -/
theorem claim10_witness :
    ∃ row, findEmptyRow nearWinGame.board (0 : Int).toNat = some row ∧
      getCell nearWinGame.board row (0 : Int).toNat = 0 ∧
      getCell wonGame.board row (0 : Int).toNat = 1 ∧
      getCell wonGame.board row (0 : Int).toNat ≠
        getCell nearWinGame.board row (0 : Int).toNat ∧
      (∀ r c, ¬(r = row ∧ c = (0 : Int).toNat) →
        getCell wonGame.board r c = getCell nearWinGame.board r c) ∧
      wonGame.game_id = nearWinGame.game_id ∧
      wonGame.players = nearWinGame.players :=
  claim10_frame nearWinGame 1 0 "Move successful" wonGame ⟨rfl, by decide⟩
    (Or.inl rfl) (by decide)

/-- C6: `check_winner` declares a win for a player exactly when the board
contains four consecutive cells of that player's marker in a horizontal
line, a vertical line, or either diagonal, anywhere on the 6 by 7 board. -/
theorem claim6_check_winner_iff_winSpec (b : Board) (player : Nat) :
    check_winner b player = true ↔ winSpec b player := by
  unfold check_winner winSpec
  simp only [Bool.or_eq_true, List.any_eq_true, List.all_eq_true,
    List.mem_range, beq_iff_eq]
  constructor
  · rintro ((⟨row, hr, col, hc, hall⟩ | ⟨col, hc, row, hr, hall⟩) |
      ⟨row, hr, col, hc, hall | hall⟩)
    · exact Or.inl ⟨row, col, hr, by omega, hall⟩
    · exact Or.inr (Or.inl ⟨row, col, by omega, hc, hall⟩)
    · exact Or.inr (Or.inr (Or.inl ⟨row, col, by omega, by omega, hall⟩))
    · exact Or.inr (Or.inr (Or.inr ⟨row, col + 3, by omega, by omega, by omega,
        fun i hi => hall i hi⟩))
  · rintro (⟨row, col, hr, hc, hall⟩ | ⟨row, col, hr, hc, hall⟩ |
      ⟨row, col, hr, hc, hall⟩ | ⟨row, col, hr, h3, hc, hall⟩)
    · exact Or.inl (Or.inl ⟨row, hr, col, by omega, hall⟩)
    · exact Or.inl (Or.inr ⟨col, hc, row, by omega, hall⟩)
    · exact Or.inr ⟨row, by omega, col, by omega, Or.inl hall⟩
    · refine Or.inr ⟨row, by omega, col - 3, by omega, Or.inr ?_⟩
      intro i hi
      have e : col - 3 + 3 - i = col - i := by omega
      rw [e]
      exact hall i hi

/-- C7 counterexample: participant 10 joins, then plays column 3 while still
the sole occupant (nothing in `handle_move` rejects a move in a waiting
session), flipping the turn; participant 20 then joins the waiting session.
The join does assign seat 2, notify both seats "started" with their own seat
numbers, and clear the slot — but the session's turn is then seat 2, not
Seat1 as claimed. -/
theorem claim7_counterexample :
    waitingMovedServer.game_waiting = some 0 ∧
    (register_player waitingMovedServer 20 1).2 =
      [(10, { status := "started", player_number := 1, game_id := 0 }),
       (20, { status := "started", player_number := 2, game_id := 0 })] ∧
    (register_player waitingMovedServer 20 1).1.game_waiting = none ∧
    (((register_player waitingMovedServer 20 1).1.games.find?
        fun e => e.1 == 0).map fun e => e.2.current_player) = some 2 := by
  decide

/-- C7 amended: a join with no waiting session creates a fresh session with
the joiner at Seat1 (turn Seat1) and tells the joiner "waiting"; a join with
a waiting session puts the joiner at Seat2, notifies both seats "started"
with their own seat numbers, clears the slot, and leaves the session's turn
unchanged (Seat1 whenever the waiting session has accepted no move). -/
theorem claim7_amended_matchmaking :
    (∀ s pid ngid, s.game_waiting = none →
      register_player s pid ngid =
        ({ games := s.games ++
            [(ngid, { initGame ngid with players := [(1, pid)] })],
           game_waiting := some ngid },
         [(pid, { status := "waiting", player_number := 1, game_id := ngid })]) ∧
      ({ initGame ngid with players := [(1, pid)] } : Game).current_player = 1) ∧
    (∀ s pid ngid gid g p1, s.game_waiting = some gid →
      (s.games.find? fun e => e.1 == gid) = some (gid, g) →
      g.players = [(1, p1)] →
      register_player s pid ngid =
        ({ games := setGame s.games gid
            { g with players := [(1, p1), (2, pid)] },
           game_waiting := none },
         [(p1, { status := "started", player_number := 1, game_id := g.game_id }),
          (pid, { status := "started", player_number := 2, game_id := g.game_id })]) ∧
      ({ g with players := [(1, p1), (2, pid)] } : Game).current_player =
        g.current_player) := by
  constructor
  · intro s pid ngid hw
    unfold register_player
    rw [hw]
    exact ⟨rfl, rfl⟩
  · intro s pid ngid gid g p1 hw hfind hplayers
    unfold register_player
    rw [hw]
    simp only [hfind, hplayers]
    exact ⟨rfl, trivial⟩

/-- C7 witness: the amended claim evaluated on a first join into an empty
server and a second join into the waiting server. -/
theorem claim7_witness :
    (register_player emptyServer 10 0 =
      ({ games := emptyServer.games ++
          [(0, { initGame 0 with players := [(1, 10)] })],
         game_waiting := some 0 },
       [(10, { status := "waiting", player_number := 1, game_id := 0 })]) ∧
      ({ initGame 0 with players := [(1, 10)] } : Game).current_player = 1) ∧
    (register_player waitingServer 20 1 =
      ({ games := setGame waitingServer.games 0
          { { initGame 0 with players := [(1, 10)] } with
              players := [(1, 10), (2, 20)] },
         game_waiting := none },
       [(10, { status := "started", player_number := 1, game_id := 0 }),
        (20, { status := "started", player_number := 2, game_id := 0 })]) ∧
      ({ { initGame 0 with players := [(1, 10)] } with
          players := [(1, 10), (2, 20)] } : Game).current_player =
        ({ initGame 0 with players := [(1, 10)] } : Game).current_player) :=
  ⟨claim7_amended_matchmaking.1 emptyServer 10 0 rfl,
   claim7_amended_matchmaking.2 waitingServer 20 1 0
     { initGame 0 with players := [(1, 10)] } 10 (by decide) (by decide) rfl⟩

/-- C9 counterexample: the "Not your turn" and "Game not found" responses
carry only `success` and `message`; the `board`, `current_player`,
`game_over` and `winner` keys are absent. -/
theorem claim9_counterexample :
    (handle_move twoPlayerServer 20 0).1.success = false ∧
    (handle_move twoPlayerServer 20 0).1.message = "Not your turn" ∧
    (handle_move twoPlayerServer 20 0).1.board = none ∧
    (handle_move twoPlayerServer 20 0).1.current_player = none ∧
    (handle_move twoPlayerServer 20 0).1.game_over = none ∧
    (handle_move twoPlayerServer 20 0).1.winner = none ∧
    (handle_move twoPlayerServer 99 0).1 =
      { success := false, message := "Game not found" } := by
  decide

/-- C9 amended: every response carries `success` and `message`; the response
built after reaching `make_move` (participant located and it is their turn)
carries all six fields, while the NotYourTurn and GameNotFound responses
carry only `success` and `message`. -/
theorem claim9_amended_response_fields (s : Server) (pid : Nat) (column : Int) :
    (∀ gid g seat, locatePlayer s.games pid = some (gid, g, seat) →
      g.current_player = seat →
      (handle_move s pid column).1.board.isSome = true ∧
      (handle_move s pid column).1.current_player.isSome = true ∧
      (handle_move s pid column).1.game_over.isSome = true ∧
      (handle_move s pid column).1.winner.isSome = true) ∧
    (∀ gid g seat, locatePlayer s.games pid = some (gid, g, seat) →
      g.current_player ≠ seat →
      (handle_move s pid column).1 =
        { success := false, message := "Not your turn" }) ∧
    (locatePlayer s.games pid = none →
      (handle_move s pid column).1 =
        { success := false, message := "Game not found" }) := by
  refine ⟨?_, ?_, ?_⟩
  · intro gid g seat hloc hturn
    unfold handle_move
    rw [hloc]
    simp only [hturn, ne_eq, not_true_eq_false, if_neg]
    rcases make_move g seat column with ⟨ok, msg, g1⟩
    exact ⟨rfl, rfl, rfl, rfl⟩
  · intro gid g seat hloc hturn
    unfold handle_move
    rw [hloc]
    simp [hturn]
  · intro hloc
    unfold handle_move
    rw [hloc]

/-- C9 witness: the three response shapes evaluated on `twoPlayerServer`. -/
theorem claim9_witness :
    ((handle_move twoPlayerServer 10 0).1.board.isSome = true ∧
     (handle_move twoPlayerServer 10 0).1.current_player.isSome = true ∧
     (handle_move twoPlayerServer 10 0).1.game_over.isSome = true ∧
     (handle_move twoPlayerServer 10 0).1.winner.isSome = true) ∧
    (handle_move twoPlayerServer 20 0).1 =
      { success := false, message := "Not your turn" } ∧
    (handle_move twoPlayerServer 99 0).1 =
      { success := false, message := "Game not found" } :=
  ⟨(claim9_amended_response_fields twoPlayerServer 10 0).1 0
      { initGame 0 with players := [(1, 10), (2, 20)] } 1 (by decide) rfl,
   (claim9_amended_response_fields twoPlayerServer 20 0).2.1 0
      { initGame 0 with players := [(1, 10), (2, 20)] } 2 (by decide) (by decide),
   (claim9_amended_response_fields twoPlayerServer 99 0).2.2 (by decide)⟩

/-! ### Server-level lemmas for the write-once invariant -/

theorem locatePlayer_mem (games : List (Nat × Game)) (pid : Nat)
    (gid : Nat) (g : Game) (seat : Nat)
    (h : locatePlayer games pid = some (gid, g, seat)) :
    (gid, g) ∈ games ∧ ∃ q ∈ g.players, q.1 = seat := by
  induction games with
  | nil => exact absurd h (by simp [locatePlayer])
  | cons e rest ih =>
    obtain ⟨gid0, g0⟩ := e
    unfold locatePlayer at h
    cases hfind : g0.players.find? (fun p => p.2 == pid) with
    | some q =>
      rw [hfind] at h
      injection h with h
      obtain ⟨h1, h2, h3⟩ : gid0 = gid ∧ g0 = g ∧ q.1 = seat := by
        simpa [Prod.ext_iff] using h
      subst h1; subst h2
      exact ⟨List.mem_cons_self _ _,
        q, List.mem_of_find?_eq_some hfind, h3⟩
    | none =>
      rw [hfind] at h
      obtain ⟨hm, hq⟩ := ih h
      exact ⟨List.mem_cons_of_mem _ hm, hq⟩

theorem find?_setGame (games : List (Nat × Game)) (gid : Nat) (g1 : Game)
    (k : Nat) :
    ((setGame games gid g1).find? fun e => e.1 == k) =
      ((games.find? fun e => e.1 == k).map
        fun e => if e.1 = gid then (gid, g1) else e) := by
  rw [setGame, List.find?_map]
  have hpred : ((fun e => e.1 == k) ∘
      fun e : Nat × Game => if e.1 = gid then (gid, g1) else e) =
      fun e : Nat × Game => e.1 == k := by
    funext e
    by_cases h : e.1 = gid <;> simp [h, Function.comp]
  rw [hpred]

theorem setGame_keys (games : List (Nat × Game)) (gid : Nat) (g1 : Game) :
    (setGame games gid g1).map Prod.fst = games.map Prod.fst := by
  rw [setGame, List.map_map]
  have hpred : (Prod.fst ∘
      fun e : Nat × Game => if e.1 = gid then (gid, g1) else e) =
      (Prod.fst : Nat × Game → Nat) := by
    funext e
    by_cases h : e.1 = gid <;> simp [h, Function.comp]
  rw [hpred]

theorem find?_eq_of_mem_nodup (games : List (Nat × Game)) (gid : Nat)
    (g : Game) (hmem : (gid, g) ∈ games)
    (hnd : (games.map Prod.fst).Nodup) :
    (games.find? fun e => e.1 == gid) = some (gid, g) := by
  induction games with
  | nil => cases hmem
  | cons e rest ih =>
    rw [List.map_cons, List.nodup_cons] at hnd
    obtain ⟨hhead, hrest⟩ := hnd
    rcases List.mem_cons.1 hmem with heq | hmem1
    · rw [← heq]
      simp [List.find?]
    · have hkey : e.1 ≠ gid := by
        intro hk
        exact hhead (hk ▸ List.mem_map.2 ⟨(gid, g), hmem1, rfl⟩)
      rw [List.find?_cons_of_neg _ (by simpa using hkey)]
      exact ih hmem1 hrest

/-- The server after `handle_move` is unchanged, or it is the old server with
the located player's game replaced by the `make_move` result. -/
theorem handle_move_games (s : Server) (pid : Nat) (column : Int) :
    (handle_move s pid column).2 = s ∨
      ∃ gid g seat, locatePlayer s.games pid = some (gid, g, seat) ∧
        g.current_player = seat ∧
        (handle_move s pid column).2 =
          { s with games := setGame s.games gid (make_move g seat column).2.2 } := by
  cases hloc : locatePlayer s.games pid with
  | none =>
    left
    simp only [handle_move, hloc]
  | some t =>
    obtain ⟨gid, g, seat⟩ := t
    by_cases hturn : g.current_player ≠ seat
    · left
      simp only [handle_move, hloc, if_pos hturn]
    · right
      push_neg at hturn
      refine ⟨gid, g, seat, rfl, hturn, ?_⟩
      rcases hmm : make_move g seat column with ⟨ok, msg, g1⟩
      have hno : ¬ g.current_player ≠ seat := fun hcon => hcon hturn
      simp only [handle_move, hloc, if_neg hno, hmm]

theorem handle_move_keys (s : Server) (pid : Nat) (column : Int) :
    (handle_move s pid column).2.games.map Prod.fst = s.games.map Prod.fst := by
  rcases handle_move_games s pid column with heq | ⟨gid, g, seat, _, _, heq⟩
  · rw [heq]
  · rw [heq]
    exact setGame_keys s.games gid (make_move g seat column).2.2

theorem handle_move_KeysNodup (s : Server) (pid : Nat) (column : Int)
    (h : KeysNodup s) : KeysNodup (handle_move s pid column).2 := by
  unfold KeysNodup at h ⊢
  rw [handle_move_keys]
  exact h

theorem handle_move_SeatsWF (s : Server) (pid : Nat) (column : Int)
    (h : SeatsWF s) : SeatsWF (handle_move s pid column).2 := by
  rcases handle_move_games s pid column with heq | ⟨gid, g, seat, hloc, _, heq⟩
  · rw [heq]; exact h
  · rw [heq]
    intro e he p hp
    obtain ⟨e0, he0, hfe⟩ := List.mem_map.1 he
    by_cases hk : e0.1 = gid
    · rw [if_pos hk] at hfe
      obtain ⟨hmem, _⟩ := locatePlayer_mem s.games pid gid g seat hloc
      have hpl := (make_move_players_id g seat column).1
      rw [← hfe] at hp
      simp only [hpl] at hp
      exact h (gid, g) hmem p hp
    · rw [if_neg hk] at hfe
      rw [← hfe] at hp
      exact h e0 he0 p hp

/-- One `handle_move` step, seen through `serverCell`: each cell of each game
is unchanged, or it was empty and now holds the seat number of the player
who moved (a key of that game's `players` dict). -/
theorem handle_move_serverCell (s : Server) (pid : Nat) (column : Int)
    (hnd : KeysNodup s) (gid r c : Nat) :
    serverCell (handle_move s pid column).2 gid r c = serverCell s gid r c ∨
      (serverCell s gid r c = 0 ∧
        ∃ g seat, locatePlayer s.games pid = some (gid, g, seat) ∧
          (∃ q ∈ g.players, q.1 = seat) ∧
          serverCell (handle_move s pid column).2 gid r c = seat) := by
  rcases handle_move_games s pid column with heq | ⟨gid1, g, seat, hloc, hturn, heq⟩
  · rw [heq]; exact Or.inl rfl
  · rw [heq]
    unfold serverCell
    rw [find?_setGame]
    cases hfind : s.games.find? (fun e => e.1 == gid) with
    | none => exact Or.inl rfl
    | some e =>
      simp only [Option.map_some']
      have hek : e.1 = gid := by
        have := List.find?_some hfind
        simpa using this
      by_cases hg : e.1 = gid1
      · obtain ⟨hmem, hq⟩ := locatePlayer_mem s.games pid gid1 g seat hloc
        have hfind1 := find?_eq_of_mem_nodup s.games gid1 g hmem hnd
        -- the located game is the one whose cell we are reading
        have hgid : gid = gid1 := by rw [← hek, hg]
        have he : e = (gid1, g) := by
          rw [hgid] at hfind
          exact Option.some.inj (hfind.symm.trans hfind1)
        rw [if_pos hg, he]
        rcases make_move_board_cases g seat column with hb | ⟨row, hrow, hb⟩
        · rw [hb]
          exact Or.inl rfl
        · rw [hb]
          rcases getCell_setCell_cases g.board row column.toNat seat r c with
            hcell | ⟨hr1, hc1, hcell⟩
          · rw [hcell]
            exact Or.inl rfl
          · right
            have hempty := ((findEmptyRow_eq_some g.board column.toNat row).1 hrow).2.1
            subst hr1; subst hc1
            exact ⟨hempty, g, seat, by rw [hgid]; exact hloc, hq, hcell⟩
      · rw [if_neg hg]
        exact Or.inl rfl

/-- C8: over any sequence of move submissions (accepted or rejected alike),
no nonzero board cell is ever overwritten or reset — a nonzero cell keeps
its exact value — and a cell that does change was 0 and ends as a seat
marker 1 or 2. Hence every cell transitions at most once, from Empty to a
seat marker. The hypotheses state two facts true of every state the Python
server builds: game ids are distinct dict keys and seat keys are 1 or 2. -/
theorem claim8_cells_write_once (s : Server) (ms : List (Nat × Int))
    (gid r c : Nat) (hnd : KeysNodup s) (hwf : SeatsWF s) :
    (serverCell s gid r c ≠ 0 →
      serverCell (runMoves s ms) gid r c = serverCell s gid r c) ∧
    (serverCell (runMoves s ms) gid r c ≠ serverCell s gid r c →
      serverCell s gid r c = 0 ∧
      (serverCell (runMoves s ms) gid r c = 1 ∨
       serverCell (runMoves s ms) gid r c = 2)) := by
  induction ms generalizing s with
  | nil => exact ⟨fun _ => rfl, fun h => absurd rfl h⟩
  | cons m ms ih =>
    have hnd1 := handle_move_KeysNodup s m.1 m.2 hnd
    have hwf1 := handle_move_SeatsWF s m.1 m.2 hwf
    have hstep := handle_move_serverCell s m.1 m.2 hnd gid r c
    have hih := ih (handle_move s m.1 m.2).2 hnd1 hwf1
    have hrun : runMoves s (m :: ms) = runMoves (handle_move s m.1 m.2).2 ms := rfl
    rw [hrun]
    rcases hstep with hsame | ⟨h0, g, seat, hloc, ⟨q, hq, hq1⟩, hset⟩
    · constructor
      · intro hne
        rw [hih.1 (hsame.symm ▸ hne), hsame]
      · intro hne
        have hne1 : serverCell (runMoves (handle_move s m.1 m.2).2 ms) gid r c ≠
            serverCell (handle_move s m.1 m.2).2 gid r c := by
          rw [hsame]; exact hne
        obtain ⟨hz, h12⟩ := hih.2 hne1
        exact ⟨hsame ▸ hz, h12⟩
    · have hseat : seat = 1 ∨ seat = 2 := by
        obtain ⟨hmem, _⟩ := locatePlayer_mem s.games m.1 gid g seat hloc
        have := hwf (gid, g) hmem q hq
        rw [hq1] at this
        exact this
      constructor
      · intro hne
        exact absurd h0 hne
      · intro hne2
        refine ⟨h0, ?_⟩
        have hne0 : serverCell (handle_move s m.1 m.2).2 gid r c ≠ 0 := by
          rw [hset]; omega
        rw [hih.1 hne0, hset]
        exact hseat

/-- C8 witness: the write-once property evaluated on a concrete server and a
one-move submission sequence. -/
theorem claim8_witness :
    (serverCell twoPlayerServer 0 5 0 ≠ 0 →
      serverCell (runMoves twoPlayerServer [(10, 0)]) 0 5 0 =
        serverCell twoPlayerServer 0 5 0) ∧
    (serverCell (runMoves twoPlayerServer [(10, 0)]) 0 5 0 ≠
        serverCell twoPlayerServer 0 5 0 →
      serverCell twoPlayerServer 0 5 0 = 0 ∧
      (serverCell (runMoves twoPlayerServer [(10, 0)]) 0 5 0 = 1 ∨
       serverCell (runMoves twoPlayerServer [(10, 0)]) 0 5 0 = 2)) :=
  claim8_cells_write_once twoPlayerServer [(10, 0)] 0 5 0
    (by unfold KeysNodup; decide) (by unfold SeatsWF; decide)

end Connect4
